import Mathlib

/-!
Verification development for the frame-randomizer production pipeline.

The definitions below are shallow embeddings of the server-side TypeScript
source: the periodic cleanup sweep (`cleanupAnswers`, `cleanupOrphanedImages`,
`cleanupExpiredImages`, `cleanupExpiredRuns`, `cleanupOrphanedAndExpiredImages`),
the startup recovery scan (`recoverFrames`), the frame producer
(`generateFrame`, `ffmpegFrame`) and the frame-serving HTTP handler.

Conventions of the embedding:
* JS timestamps (`Date.now()` values) are `Nat`; `expiryTs : timestamp | null`
  becomes `Option Nat`.  JS truthiness of a number field (`if (x.expiryTs)`)
  is `tsTruthy`: `null` and `0` are falsy.
* The key-value stores (`useStorage(...)`) are functions `String → Option α`
  with pointwise `setKey` / `removeKey` updates; `getKeys()` is passed in as
  the list of keys, which for a real store is duplicate-free (`List.Nodup`).
* Async control flow is modelled two ways.  End-state behaviour of a sweep is
  a pure fold over the key list (each key's handler touches only its own key,
  so the concurrent `Promise.all` is equivalent to the fold on distinct keys).
  Where a claim is about *ordering* of suspension points, the function is
  modelled as a small labelled transition system: issuing an async operation
  and its completion are separate steps, and completions are interleaved
  nondeterministically by the scheduler (a list of actions).
-/

/-- JS truthiness of a nullable numeric timestamp field: `null` (here `none`)
and `0` are falsy, every other number is truthy. -/
def tsTruthy : Option Nat → Bool
  | none => false
  | some t => decide (t ≠ 0)

/-- Pointwise removal from a key-value store, the effect of
`storage.removeItem(k)` once it has completed. -/
def removeKey {α : Type} (store : String → Option α) (k : String) :
    String → Option α :=
  fun id => if id = k then none else store id

/-- Pointwise write to a key-value store, the effect of
`storage.setItem(k, v)` once it has completed. -/
def setKey {α : Type} (store : String → Option α) (k : String) (v : α) :
    String → Option α :=
  fun id => if id = k then some v else store id

/-- StoredAnswer from `types.ts` as used by the pipeline:
`{ season, episode, seekTime, expiryTs: timestamp | null }`.  The first three
fields are opaque payload for the claims below. -/
structure StoredAnswer where
  season : Nat
  episode : Nat
  seekTime : Nat
  expiryTs : Option Nat
  deriving DecidableEq, Repr

/-- StoredFileState from `types.ts`: `{ expiryTs: timestamp | null }`. -/
structure StoredFileState where
  expiryTs : Option Nat
  deriving DecidableEq, Repr

/-- StoredRunData as used by `cleanupExpiredRuns`: an ordered history of
served-frame interactions (entries opaque, modelled as `Nat`) and an
`expiryTs: timestamp | null`. -/
structure StoredRunData where
  history : List Nat
  expiryTs : Option Nat
  deriving DecidableEq, Repr

/-! ## Cleanup sweep: expired answers (`cleanupAnswers`)

Source (`part_000`): for each key of the answer store,
`if (answer && answer.expiryTs && answer.expiryTs < Date.now())` then
`answerStorage.removeItem(answerId)`.  `Date.now()` is modelled as the single
value `now`, matching the spec's framing of a sweep "run at system time T". -/

/-- Condition under which `cleanupAnswers` removes an answer: the stored
`expiryTs` is truthy (non-null and nonzero) and strictly less than `now`. -/
def answerExpiredCond (now : Nat) (e : Option Nat) : Bool :=
  match e with
  | none => false
  | some t => decide (t ≠ 0) && decide (t < now)

/-- Per-key body of `cleanupAnswers`. -/
def cleanupAnswersStep (now : Nat) (store : String → Option StoredAnswer)
    (k : String) : String → Option StoredAnswer :=
  match store k with
  | none => store
  | some a => if answerExpiredCond now a.expiryTs then removeKey store k else store

/-- The `cleanupAnswers` sweep: the per-key bodies run under `Promise.all`,
each touching only its own key, so on duplicate-free keys the sweep is the
fold of the per-key body. -/
def cleanupAnswers (now : Nat) (keys : List String)
    (store : String → Option StoredAnswer) : String → Option StoredAnswer :=
  keys.foldl (cleanupAnswersStep now) store

/-! ## Cleanup sweep: expired runs (`cleanupExpiredRuns`)

Source (`part_000`): for each key of the run store, if
`data && (!data.expiryTs || data.expiryTs < Date.now())` then remove the live
record, and additionally, when `data.history.length >= config.runRetentionThreshold`,
set `data.expiryTs = null` and write it to the archived-run store. -/

/-- Condition under which `cleanupExpiredRuns` cleans a run:
`!data.expiryTs || data.expiryTs < Date.now()` — expiry null, zero (falsy) or
elapsed. -/
def runCleanCond (now : Nat) (e : Option Nat) : Bool :=
  match e with
  | none => true
  | some t => decide (t = 0) || decide (t < now)

/-- Stores touched by `cleanupExpiredRuns`: the live run store and the
archived-run store. -/
structure RunStores where
  live : String → Option StoredRunData
  archived : String → Option StoredRunData

/-- Per-key body of `cleanupExpiredRuns` (end-state view): remove the live
record; archive it with cleared expiry when the history is long enough. -/
def cleanupExpiredRunsStep (now threshold : Nat) (s : RunStores)
    (k : String) : RunStores :=
  match s.live k with
  | none => s
  | some d =>
      if runCleanCond now d.expiryTs then
        { live := removeKey s.live k,
          archived :=
            if threshold ≤ d.history.length then
              setKey s.archived k { d with expiryTs := none }
            else s.archived }
      else s

/-- The `cleanupExpiredRuns` sweep as a fold of the per-key body over the run
store's keys. -/
def cleanupExpiredRuns (now threshold : Nat) (keys : List String)
    (s : RunStores) : RunStores :=
  keys.foldl (cleanupExpiredRunsStep now threshold) s

/-! ## Lemmas: per-key sweeps only touch their own key -/

theorem cleanupAnswersStep_ne (now : Nat) (store : String → Option StoredAnswer)
    (k id : String) (h : id ≠ k) :
    cleanupAnswersStep now store k id = store id := by
  simp only [cleanupAnswersStep]
  cases hs : store k with
  | none => rfl
  | some a =>
      by_cases hc : answerExpiredCond now a.expiryTs = true
      · simp [hc, removeKey, h]
      · simp [hc]

theorem cleanupAnswers_not_mem (now : Nat) (keys : List String)
    (store : String → Option StoredAnswer) (id : String) (h : id ∉ keys) :
    cleanupAnswers now keys store id = store id := by
  induction keys generalizing store with
  | nil => rfl
  | cons k rest ih =>
      simp only [List.mem_cons, not_or] at h
      show cleanupAnswers now rest (cleanupAnswersStep now store k) id = store id
      rw [ih _ h.2, cleanupAnswersStep_ne now store k id h.1]

theorem cleanupExpiredRunsStep_ne (now threshold : Nat) (s : RunStores)
    (k id : String) (h : id ≠ k) :
    (cleanupExpiredRunsStep now threshold s k).live id = s.live id ∧
      (cleanupExpiredRunsStep now threshold s k).archived id = s.archived id := by
  simp only [cleanupExpiredRunsStep]
  cases hs : s.live k with
  | none => exact ⟨rfl, rfl⟩
  | some d =>
      by_cases hc : runCleanCond now d.expiryTs = true
      · by_cases hl : threshold ≤ d.history.length
        · constructor <;> simp [hc, hl, removeKey, setKey, h]
        · constructor <;> simp [hc, hl, removeKey, h]
      · simp [hc]

theorem cleanupExpiredRuns_not_mem (now threshold : Nat) (keys : List String)
    (s : RunStores) (id : String) (h : id ∉ keys) :
    (cleanupExpiredRuns now threshold keys s).live id = s.live id ∧
      (cleanupExpiredRuns now threshold keys s).archived id = s.archived id := by
  induction keys generalizing s with
  | nil => exact ⟨rfl, rfl⟩
  | cons k rest ih =>
      simp only [List.mem_cons, not_or] at h
      have hstep := cleanupExpiredRunsStep_ne now threshold s k id h.1
      have htail := ih (cleanupExpiredRunsStep now threshold s k) h.2
      exact ⟨htail.1.trans hstep.1, htail.2.trans hstep.2⟩

/-! ## Operational model of `generateFrame` (`part_001`)

`generateFrame` performs, in program order: it calls
`frameStateStorage.setItem(imageId, { expiryTs: null })` *without awaiting it*
(keeping the promise `storeImageIdP`), then awaits `ffmpegFrame(...)` (the
external extraction subprocess), then awaits
`Promise.all([answerStorage.setItem(imageId, ...), storeImageIdP])`, and only
then returns `{ imageId }`.

Issuing an async operation and its completion are separate transitions; the
scheduler (an arbitrary action list) decides when each issued operation
completes.  `GenAction.main` advances the body of `generateFrame` whenever the
operation it is awaiting has completed; the other actions complete an issued
storage write or the subprocess. -/

/-- Program counter of the `generateFrame` body: about to issue the FileState
write; about to invoke extraction; awaiting extraction; awaiting the
`Promise.all` of the answer write and the FileState write; returned. -/
inductive GenPc where
  | issueFsWrite
  | invokeExtract
  | awaitExtract
  | awaitWrites
  | returned
  deriving DecidableEq, Repr, Fintype

/-- State of one `generateFrame` invocation: program counter plus, for each of
the three async operations (FileState write, extraction subprocess, Answer
write), whether it has been issued and whether it has completed. -/
structure GenState where
  pc : GenPc
  fsIssued : Bool
  fsDone : Bool
  extractIssued : Bool
  extractDone : Bool
  ansIssued : Bool
  ansDone : Bool
  deriving DecidableEq, Repr

instance : Fintype GenState :=
  Fintype.ofEquiv (GenPc × Bool × Bool × Bool × Bool × Bool × Bool)
    { toFun := fun x => ⟨x.1, x.2.1, x.2.2.1, x.2.2.2.1, x.2.2.2.2.1, x.2.2.2.2.2.1,
        x.2.2.2.2.2.2⟩
      invFun := fun s => ⟨s.pc, s.fsIssued, s.fsDone, s.extractIssued, s.extractDone,
        s.ansIssued, s.ansDone⟩
      left_inv := fun _ => rfl
      right_inv := fun _ => rfl }

/-- Scheduler actions: advance the `generateFrame` body, or complete one of
the issued async operations. -/
inductive GenAction where
  | main
  | fsWriteComplete
  | extractComplete
  | ansWriteComplete
  deriving DecidableEq, Repr, Fintype

/-- One transition.  Disabled actions (completing an operation that was never
issued or is already complete, advancing a body that is blocked) are no-ops,
so an arbitrary action list is an arbitrary fair-or-unfair schedule. -/
def genStep : GenAction → GenState → GenState
  | .main, s =>
      match s.pc with
      | .issueFsWrite => { s with fsIssued := true, pc := .invokeExtract }
      | .invokeExtract => { s with extractIssued := true, pc := .awaitExtract }
      | .awaitExtract =>
          if s.extractDone then { s with ansIssued := true, pc := .awaitWrites } else s
      | .awaitWrites =>
          if s.ansDone && s.fsDone then { s with pc := .returned } else s
      | .returned => s
  | .fsWriteComplete, s => if s.fsIssued then { s with fsDone := true } else s
  | .extractComplete, s => if s.extractIssued then { s with extractDone := true } else s
  | .ansWriteComplete, s => if s.ansIssued then { s with ansDone := true } else s

/-- Initial state of a `generateFrame` invocation. -/
def genInit : GenState :=
  { pc := .issueFsWrite, fsIssued := false, fsDone := false, extractIssued := false,
    extractDone := false, ansIssued := false, ansDone := false }

/-- Run a schedule from the initial state. -/
def genExec (acts : List GenAction) : GenState :=
  acts.foldl (fun s a => genStep a s) genInit

/-- Inductive invariant of the `generateFrame` machine: once past the first
program point the FileState write has been issued; extraction is only ever
invoked after the FileState write was issued; and the function only returns
once both the answer write and the FileState write have completed. -/
def genInvB (s : GenState) : Bool :=
  (decide (s.pc = GenPc.issueFsWrite) || s.fsIssued) &&
    (!s.extractIssued || s.fsIssued) &&
    (!decide (s.pc = GenPc.returned) || (s.ansDone && s.fsDone))

set_option maxRecDepth 4096 in
theorem genInvB_step :
    ∀ (a : GenAction) (s : GenState), genInvB s = true → genInvB (genStep a s) = true := by
  decide

theorem genInvB_exec (acts : List GenAction) : genInvB (genExec acts) = true := by
  suffices h : ∀ (l : List GenAction) (s : GenState), genInvB s = true →
      genInvB (l.foldl (fun s a => genStep a s) s) = true from h acts genInit (by decide)
  intro l
  induction l with
  | nil => exact fun s hs => hs
  | cons a rest ih => exact fun s hs => ih (genStep a s) (genInvB_step a s hs)

/-! ## Operational model of the archival branch of `cleanupExpiredRuns`

For an expired run whose history length meets the retention threshold the
source executes, in program order:
`const work = [runStateStorage.removeItem(runId)]` (the live-record removal is
issued here), then `data.expiryTs = null; work.push(archivedRunStorage.setItem(runId, data))`
(the archival write is issued), then `await Promise.all(work)`.  The two store
operations run concurrently; nothing orders their completions. -/

/-- Program counter of the archival branch: about to issue the live removal;
about to issue the archival write; awaiting both; finished. -/
inductive RunPc where
  | issueRemove
  | issueArchive
  | awaitBoth
  | finished
  deriving DecidableEq, Repr, Fintype

/-- State of one archival-branch execution. -/
structure RunCleanState where
  pc : RunPc
  removeIssued : Bool
  removeDone : Bool
  archiveIssued : Bool
  archiveDone : Bool
  deriving DecidableEq, Repr

instance : Fintype RunCleanState :=
  Fintype.ofEquiv (RunPc × Bool × Bool × Bool × Bool)
    { toFun := fun x => ⟨x.1, x.2.1, x.2.2.1, x.2.2.2.1, x.2.2.2.2⟩
      invFun := fun s => ⟨s.pc, s.removeIssued, s.removeDone, s.archiveIssued,
        s.archiveDone⟩
      left_inv := fun _ => rfl
      right_inv := fun _ => rfl }

/-- Scheduler actions for the archival branch. -/
inductive RunCleanAction where
  | main
  | removeComplete
  | archiveComplete
  deriving DecidableEq, Repr, Fintype

/-- One transition of the archival branch. -/
def runCleanStep : RunCleanAction → RunCleanState → RunCleanState
  | .main, s =>
      match s.pc with
      | .issueRemove => { s with removeIssued := true, pc := .issueArchive }
      | .issueArchive => { s with archiveIssued := true, pc := .awaitBoth }
      | .awaitBoth =>
          if s.removeDone && s.archiveDone then { s with pc := .finished } else s
      | .finished => s
  | .removeComplete, s => if s.removeIssued then { s with removeDone := true } else s
  | .archiveComplete, s => if s.archiveIssued then { s with archiveDone := true } else s

/-- Initial state of the archival branch. -/
def runCleanInit : RunCleanState :=
  { pc := .issueRemove, removeIssued := false, removeDone := false,
    archiveIssued := false, archiveDone := false }

/-- Run a schedule of the archival branch from its initial state. -/
def runCleanExec (acts : List RunCleanAction) : RunCleanState :=
  acts.foldl (fun s a => runCleanStep a s) runCleanInit

/-! ## Timing model of `cleanupOrphanedAndExpiredImages` (`part_000`)

The sweep runs `Promise.all([frameStateStorage.getKeys(), glob(globPattern),
sleep(1000).then(() => glob(globPattern))])`: the first directory listing
starts when the sweep starts, and the second listing starts when the
one-second sleep resolves (after at least 1000 ms; `timerSlack` is any extra
timer lateness).  The listings' durations are unconstrained I/O. -/

/-- One execution of the double-listing sweep: its start time, the durations
of the two `glob` listings, and the timer lateness of the 1000 ms sleep. -/
structure SweepTiming where
  startTs : Nat
  glob1Dur : Nat
  glob2Dur : Nat
  timerSlack : Nat
  deriving DecidableEq, Repr

/-- Time at which the first listing starts: the start of the sweep. -/
def list1Start (s : SweepTiming) : Nat := s.startTs

/-- Time at which the first listing completes. -/
def list1Finish (s : SweepTiming) : Nat := s.startTs + s.glob1Dur

/-- Time at which the one-second sleep resolves. -/
def sleepFinish (s : SweepTiming) : Nat := s.startTs + 1000 + s.timerSlack

/-- Time at which the second listing starts: when the sleep resolves. -/
def list2Start (s : SweepTiming) : Nat := sleepFinish s

/-- Time at which the second listing completes. -/
def list2Finish (s : SweepTiming) : Nat := list2Start s + s.glob2Dur

/-! ## Claim C1 -/

/-- C1: for every successful `generateFrame` invocation, both the Answer
record write and the FileState record write have fully completed before the
function returns its `{ imageId }` result: in every schedule of the
`generateFrame` machine, a state whose program counter has reached `returned`
has both `ansDone` and `fsDone` set. -/
theorem generateFrame_writes_complete_before_return (acts : List GenAction)
    (h : (genExec acts).pc = GenPc.returned) :
    (genExec acts).ansDone = true ∧ (genExec acts).fsDone = true := by
  have hinv := genInvB_exec acts
  unfold genInvB at hinv
  rw [h] at hinv
  simp at hinv
  exact ⟨hinv.2.1, hinv.2.2⟩

/-- Witness for C1: a concrete complete schedule of `generateFrame` reaching
`returned`, at which both writes have completed. -/
theorem generateFrame_writes_complete_before_return_witness :
    (genExec [GenAction.main, GenAction.main, GenAction.extractComplete, GenAction.main,
        GenAction.fsWriteComplete, GenAction.ansWriteComplete, GenAction.main]).ansDone
        = true ∧
      (genExec [GenAction.main, GenAction.main, GenAction.extractComplete, GenAction.main,
        GenAction.fsWriteComplete, GenAction.ansWriteComplete, GenAction.main]).fsDone
        = true :=
  generateFrame_writes_complete_before_return
    [GenAction.main, GenAction.main, GenAction.extractComplete, GenAction.main,
      GenAction.fsWriteComplete, GenAction.ansWriteComplete, GenAction.main] (by decide)

/-! ## Claim C6 -/

/-- C6 counterexample: the claim says the FileState write *has completed*
before the extraction subprocess is invoked.  In the source the write is
issued but not awaited (`storeImageIdP` is only awaited in the final
`Promise.all`), so the schedule `[main, main]` reaches a state where
extraction has been invoked while the FileState write has not completed. -/
theorem extraction_can_start_before_fileState_write_completes :
    ¬ (∀ acts : List GenAction,
        (genExec acts).extractIssued = true → (genExec acts).fsDone = true) := by
  intro h
  have hc := h [GenAction.main, GenAction.main] (by decide)
  exact absurd hc (by decide)

/-- C6 (amended): within every frame generation the FileState write with null
expiry is *initiated* (the `setItem` call is made) before the extraction
subprocess is invoked, and its completion is confirmed before `generateFrame`
returns — but the write need not have completed when extraction starts. -/
theorem fileState_write_initiated_before_extraction (acts : List GenAction) :
    ((genExec acts).extractIssued = true → (genExec acts).fsIssued = true) ∧
      ((genExec acts).pc = GenPc.returned → (genExec acts).fsDone = true) := by
  have hinv := genInvB_exec acts
  unfold genInvB at hinv
  simp only [Bool.and_eq_true, Bool.or_eq_true, Bool.not_eq_true',
    decide_eq_true_eq] at hinv
  constructor
  · intro hx
    rcases hinv.1.2 with h | h
    · rw [hx] at h; exact absurd h (by decide)
    · exact h
  · intro hp
    rcases hinv.2 with h | h
    · rw [hp] at h; exact absurd h (by decide)
    · exact h.2

/-- Witness for C6 (amended): after the schedule `[main, main]` extraction has
been invoked and the FileState write is indeed issued; after a complete
schedule the machine has returned and the write has completed. -/
theorem fileState_write_initiated_before_extraction_witness :
    (genExec [GenAction.main, GenAction.main]).fsIssued = true ∧
      (genExec [GenAction.main, GenAction.main, GenAction.extractComplete, GenAction.main,
        GenAction.fsWriteComplete, GenAction.ansWriteComplete, GenAction.main]).fsDone
        = true :=
  ⟨(fileState_write_initiated_before_extraction [GenAction.main, GenAction.main]).1
      (by decide),
    (fileState_write_initiated_before_extraction
      [GenAction.main, GenAction.main, GenAction.extractComplete, GenAction.main,
        GenAction.fsWriteComplete, GenAction.ansWriteComplete, GenAction.main]).2
      (by decide)⟩

/-! ## Claim C8 -/

/-- C8 counterexample: the claim requires an expired, retention-worthy run to
be re-persisted into the archival store *before* the live copy is deleted.  In
the source the live `removeItem` is issued first and both operations run under
`Promise.all` with no ordering between them, so the schedule
`[main, removeComplete]` reaches a state where the live deletion has completed
while the archival write has not. -/
theorem run_archive_not_ordered_before_delete :
    ¬ (∀ acts : List RunCleanAction,
        (runCleanExec acts).removeDone = true → (runCleanExec acts).archiveDone = true) := by
  intro h
  have hc := h [RunCleanAction.main, RunCleanAction.removeComplete] (by decide)
  exact absurd hc (by decide)

/-- C8 (amended): in every cleanup sweep, every Run whose expiry is unset or
elapsed is removed from the live run store; if its history length meets or
exceeds the retention threshold it is also re-persisted into the archival
store with its expiry cleared to null (the archive write and the live
deletion are concurrent, with no ordering between them), otherwise the
archival store is untouched and the run is dropped permanently. -/
theorem cleanupExpiredRuns_archives_and_deletes (now threshold : Nat)
    (keys : List String) (s : RunStores) (id : String) (d : StoredRunData)
    (hnd : keys.Nodup) (hmem : id ∈ keys) (hid : s.live id = some d)
    (hexp : d.expiryTs = none ∨ ∃ t, d.expiryTs = some t ∧ t < now) :
    (cleanupExpiredRuns now threshold keys s).live id = none ∧
      (threshold ≤ d.history.length →
        (cleanupExpiredRuns now threshold keys s).archived id
          = some { history := d.history, expiryTs := none }) ∧
      (d.history.length < threshold →
        (cleanupExpiredRuns now threshold keys s).archived id = s.archived id) := by
  have hcond : runCleanCond now d.expiryTs = true := by
    rcases hexp with h | ⟨t, ht, htn⟩
    · simp [runCleanCond, h]
    · simp [runCleanCond, ht, htn]
  induction keys generalizing s with
  | nil => cases hmem
  | cons k rest ih =>
      rw [List.nodup_cons] at hnd
      rcases List.mem_cons.mp hmem with heq | hmemr
      · subst heq
        have hrest :
            (cleanupExpiredRuns now threshold rest
                (cleanupExpiredRunsStep now threshold s id)).live id
              = (cleanupExpiredRunsStep now threshold s id).live id ∧
            (cleanupExpiredRuns now threshold rest
                (cleanupExpiredRunsStep now threshold s id)).archived id
              = (cleanupExpiredRunsStep now threshold s id).archived id :=
          cleanupExpiredRuns_not_mem now threshold rest _ id hnd.1
        have hstep :
            (cleanupExpiredRunsStep now threshold s id).live id = none ∧
            (threshold ≤ d.history.length →
              (cleanupExpiredRunsStep now threshold s id).archived id
                = some { history := d.history, expiryTs := none }) ∧
            (d.history.length < threshold →
              (cleanupExpiredRunsStep now threshold s id).archived id = s.archived id) := by
          refine ⟨?_, fun hl => ?_, fun hl => ?_⟩
          · simp [cleanupExpiredRunsStep, hid, hcond, removeKey]
          · simp [cleanupExpiredRunsStep, hid, hcond, hl, setKey]
          · simp [cleanupExpiredRunsStep, hid, hcond, Nat.not_le.mpr hl]
        refine ⟨hrest.1.trans hstep.1, fun hl => ?_, fun hl => ?_⟩
        · exact hrest.2.trans (hstep.2.1 hl)
        · exact hrest.2.trans (hstep.2.2 hl)
      · have hne : id ≠ k := by
          intro he
          exact hnd.1 (he ▸ hmemr)
        have hpres := cleanupExpiredRunsStep_ne now threshold s k id hne
        have hid' : (cleanupExpiredRunsStep now threshold s k).live id = some d :=
          hpres.1.trans hid
        have hrec := ih (cleanupExpiredRunsStep now threshold s k) hnd.2 hmemr hid'
        exact ⟨hrec.1, fun hl => hrec.2.1 hl, fun hl => (hrec.2.2 hl).trans hpres.2⟩

/-- Witness for C8: a concrete sweep at time 10 with threshold 5 over a single
expired run with a 10-entry history: it is removed from the live store and
archived with its expiry cleared. -/
theorem cleanupExpiredRuns_archives_and_deletes_witness :
    (cleanupExpiredRuns 10 5 ["r"]
        { live := fun id => if id = "r"
            then some { history := [0, 1, 2, 3, 4, 5, 6, 7, 8, 9], expiryTs := some 3 }
            else none,
          archived := fun _ => none }).live "r" = none ∧
      (cleanupExpiredRuns 10 5 ["r"]
        { live := fun id => if id = "r"
            then some { history := [0, 1, 2, 3, 4, 5, 6, 7, 8, 9], expiryTs := some 3 }
            else none,
          archived := fun _ => none }).archived "r"
        = some { history := [0, 1, 2, 3, 4, 5, 6, 7, 8, 9], expiryTs := none } := by
  have h := cleanupExpiredRuns_archives_and_deletes 10 5 ["r"]
    { live := fun id => if id = "r"
        then some { history := [0, 1, 2, 3, 4, 5, 6, 7, 8, 9], expiryTs := some 3 }
        else none,
      archived := fun _ => none }
    "r" { history := [0, 1, 2, 3, 4, 5, 6, 7, 8, 9], expiryTs := some 3 }
    (by decide) (by decide) (by decide) (Or.inr ⟨3, rfl, by decide⟩)
  exact ⟨h.1, h.2.1 (by decide)⟩

/-! ## Claim C5 -/

/-- C5 counterexample: the claim says the second directory listing cannot
start before the first has completed.  In the source the two listings run
under `Promise.all`; the second is delayed only by the one-second sleep, not
by the first listing's completion.  With a first listing taking 5000 ms the
second starts (at 1000 ms) before the first finishes. -/
theorem secondListing_can_start_before_first_finishes :
    list2Start { startTs := 0, glob1Dur := 5000, glob2Dur := 0, timerSlack := 0 }
      < list1Finish { startTs := 0, glob1Dur := 5000, glob2Dur := 0, timerSlack := 0 } := by
  decide

/-- C5 (amended): in every sweep the second listing starts only when the
one-second sleep has resolved, hence at least one second after the *start* of
the first listing — but it is not ordered after the first listing's
completion. -/
theorem secondListing_starts_one_second_after_first (s : SweepTiming) :
    list1Start s + 1000 ≤ list2Start s ∧ list2Start s = sleepFinish s := by
  constructor
  · simp only [list1Start, list2Start, sleepFinish]
    omega
  · rfl

/-! ## Claim C9 -/

/-- C9 counterexample: at system time 5, an answer whose expiry is set to
timestamp 0 — set and elapsed, since 0 < 5 — survives the sweep, because the
source's truthiness test `answer.expiryTs &&` treats the number 0 as unset.
The claim says every answer whose expiry is set and elapsed is deleted. -/
theorem cleanupAnswers_zero_expiry_survives :
    (0 : Nat) < 5 ∧
      cleanupAnswers 5 ["a"]
        (fun id => if id = "a"
          then some { season := 1, episode := 1, seekTime := 1, expiryTs := some 0 }
          else none) "a"
        = some { season := 1, episode := 1, seekTime := 1, expiryTs := some 0 } := by
  constructor
  · decide
  · rfl

/-- C9 (amended): in every cleanup sweep at system time `now`, every answer
whose expiry is set to a *nonzero* timestamp that has elapsed is deleted from
the answer store, and every answer whose expiry is unset, zero, or not yet
elapsed survives the sweep. -/
theorem cleanupAnswers_deletes_elapsed_nonzero (now : Nat) (keys : List String)
    (store : String → Option StoredAnswer) (id : String) (a : StoredAnswer)
    (hnd : keys.Nodup) (hmem : id ∈ keys) (hid : store id = some a) :
    ((∃ t, a.expiryTs = some t ∧ t ≠ 0 ∧ t < now) →
      cleanupAnswers now keys store id = none) ∧
      ((a.expiryTs = none ∨ a.expiryTs = some 0 ∨ ∃ t, a.expiryTs = some t ∧ now ≤ t) →
        cleanupAnswers now keys store id = some a) := by
  induction keys generalizing store with
  | nil => cases hmem
  | cons k rest ih =>
      rw [List.nodup_cons] at hnd
      rcases List.mem_cons.mp hmem with heq | hmemr
      · subst heq
        have hrest : ∀ st : String → Option StoredAnswer,
            cleanupAnswers now rest st id = st id :=
          fun st => cleanupAnswers_not_mem now rest st id hnd.1
        constructor
        · rintro ⟨t, ht, htz, htn⟩
          have hcond : answerExpiredCond now a.expiryTs = true := by
            simp [answerExpiredCond, ht, htz, htn]
          show cleanupAnswers now rest (cleanupAnswersStep now store id) id = none
          rw [hrest]
          simp [cleanupAnswersStep, hid, hcond, removeKey]
        · intro hcase
          have hcond : answerExpiredCond now a.expiryTs = false := by
            rcases hcase with h0 | h0 | ⟨t, ht, htn⟩
            · simp [answerExpiredCond, h0]
            · simp [answerExpiredCond, h0]
            · simp [answerExpiredCond, ht, Nat.not_lt.mpr htn]
          show cleanupAnswers now rest (cleanupAnswersStep now store id) id = some a
          rw [hrest]
          simp [cleanupAnswersStep, hid, hcond]
      · have hne : id ≠ k := by
          intro he
          exact hnd.1 (he ▸ hmemr)
        have hid' : cleanupAnswersStep now store k id = some a := by
          rw [cleanupAnswersStep_ne now store k id hne, hid]
        exact ih (cleanupAnswersStep now store k) hnd.2 hmemr hid'

/-- Witness for C9 (amended): at time 10, an answer with expiry 4 (nonzero,
elapsed) is deleted, and an answer with expiry 20 (in the future) survives. -/
theorem cleanupAnswers_deletes_elapsed_nonzero_witness :
    cleanupAnswers 10 ["a"]
        (fun id => if id = "a"
          then some { season := 1, episode := 2, seekTime := 3, expiryTs := some 4 }
          else none) "a" = none ∧
      cleanupAnswers 10 ["b"]
        (fun id => if id = "b"
          then some { season := 1, episode := 2, seekTime := 3, expiryTs := some 20 }
          else none) "b"
        = some { season := 1, episode := 2, seekTime := 3, expiryTs := some 20 } :=
  ⟨(cleanupAnswers_deletes_elapsed_nonzero 10 ["a"] _ "a"
      { season := 1, episode := 2, seekTime := 3, expiryTs := some 4 }
      (by decide) (by decide) rfl).1 ⟨4, rfl, by decide, by decide⟩,
    (cleanupAnswers_deletes_elapsed_nonzero 10 ["b"] _ "b"
      { season := 1, episode := 2, seekTime := 3, expiryTs := some 20 }
      (by decide) (by decide) rfl).2 (Or.inr (Or.inr ⟨20, rfl, by decide⟩))⟩

/-! ## The quality gate of `ffmpegFrame` (`part_001`)

Source:
`let rejected = -1; do { ++rejected; random = chooseFrame(); await exec(ffmpeg ...); }
while (requiredStddev > 0 && rejected < maxRejects && parseInt(... identify ...) < requiredStddev);`

Each loop iteration seeks a fresh random frame and extracts it; the measured
standard deviation of attempt `i` is the oracle `stddev i` (an arbitrary
integer, covering whatever `parseInt` returns).  `rejected` counts the
re-seeks: the first attempt runs with `rejected = 0`, and the loop exits with
`rejected` equal to the index of the accepted attempt.  `ffmpegLoop` is the
loop from an arbitrary `rejected` value; `ffmpegFrameRejects` is the number of
re-seeks of a full `ffmpegFrame` call. -/

/-- The do/while rejection loop of `ffmpegFrame`, returning the final value of
`rejected`. -/
def ffmpegLoop (requiredStddev : Int) (maxRejects : Nat) (stddev : Nat → Int)
    (rejected : Nat) : Nat :=
  if h : 0 < requiredStddev ∧ rejected < maxRejects ∧ stddev rejected < requiredStddev then
    ffmpegLoop requiredStddev maxRejects stddev (rejected + 1)
  else rejected
termination_by maxRejects - rejected
decreasing_by omega

/-- Number of re-seeks performed by one `ffmpegFrame` call: the rejection loop
started at `rejected = 0`. -/
def ffmpegFrameRejects (requiredStddev : Int) (maxRejects : Nat)
    (stddev : Nat → Int) : Nat :=
  ffmpegLoop requiredStddev maxRejects stddev 0

theorem ffmpegLoop_le (r : Int) (m : Nat) (f : Nat → Int) :
    ∀ k, ffmpegLoop r m f k ≤ max k m := by
  have key : ∀ (fuel k : Nat), m - k ≤ fuel → ffmpegLoop r m f k ≤ max k m := by
    intro fuel
    induction fuel with
    | zero =>
        intro k hk
        rw [ffmpegLoop]
        split
        · rename_i h
          exact absurd hk (by omega)
        · exact Nat.le_max_left k m
    | succ n ih =>
        intro k hk
        rw [ffmpegLoop]
        split
        · rename_i h
          have h2 := ih (k + 1) (by omega)
          have e1 : max (k + 1) m = m := Nat.max_eq_right (by omega)
          have e2 : max k m = m := Nat.max_eq_right (by omega)
          rw [e2]
          rw [e1] at h2
          exact h2
        · exact Nat.le_max_left k m
  exact fun k => key (m - k) k le_rfl

theorem ffmpegLoop_all_below (r : Int) (m : Nat) (f : Nat → Int) (hr : 0 < r)
    (hall : ∀ i, f i < r) : ∀ k, k ≤ m → ffmpegLoop r m f k = m := by
  have key : ∀ (fuel k : Nat), m - k ≤ fuel → k ≤ m → ffmpegLoop r m f k = m := by
    intro fuel
    induction fuel with
    | zero =>
        intro k hk hkm
        have hekm : k = m := by omega
        subst hekm
        rw [ffmpegLoop]
        split
        · rename_i h
          exact absurd h.2.1 (by omega)
        · rfl
    | succ n ih =>
        intro k hk hkm
        rcases Nat.lt_or_ge k m with hlt | hge
        · rw [ffmpegLoop, dif_pos ⟨hr, hlt, hall k⟩]
          exact ih (k + 1) (by omega) (by omega)
        · have hekm : k = m := by omega
          subst hekm
          rw [ffmpegLoop]
          split
          · rename_i h
            exact absurd h.2.1 (by omega)
          · rfl
  exact fun k hkm => key (m - k) k le_rfl hkm

/-! ## Claim C7 -/

/-- C7: for every configuration the quality-gate loop re-seeks at most
`maxRejects` (the configured maximum number of rejections) times and then
terminates (the loop function is total by construction); and when a threshold
is configured and every extracted attempt measures below it, the loop stops
after exactly `maxRejects` re-seeks and accepts that last attempt even though
it is below the threshold. -/
theorem ffmpegFrame_bounded_rejections (requiredStddev : Int) (maxRejects : Nat)
    (stddev : Nat → Int) :
    ffmpegFrameRejects requiredStddev maxRejects stddev ≤ maxRejects ∧
      (0 < requiredStddev → (∀ i, stddev i < requiredStddev) →
        ffmpegFrameRejects requiredStddev maxRejects stddev = maxRejects) := by
  constructor
  · have h := ffmpegLoop_le requiredStddev maxRejects stddev 0
    simpa using h
  · intro hr hall
    exact ffmpegLoop_all_below requiredStddev maxRejects stddev hr hall 0 (Nat.zero_le _)

/-- Witness for C7: with threshold 1 and every attempt measuring 0, a run with
`maxRejects = 2` performs exactly 2 re-seeks and stops. -/
theorem ffmpegFrame_bounded_rejections_witness :
    ffmpegFrameRejects 1 2 (fun _ => 0) ≤ 2 ∧ ffmpegFrameRejects 1 2 (fun _ => 0) = 2 :=
  ⟨(ffmpegFrame_bounded_rejections 1 2 (fun _ => 0)).1,
    (ffmpegFrame_bounded_rejections 1 2 (fun _ => 0)).2 (by decide) (fun _ => by decide)⟩

/-! ## Startup recovery scan (`recoverFrames`, `part_001`)

For every key of the frame-state store the scan reads the FileState and the
Answer (`fileData`, `answerData`) and probes the image file on disk
(`fs.stat`, the `onDisk` oracle), then classifies the id by the source's
branch order:
* `fileData && !answerData` → no-answer;
* `!fileData && answerData` → unserved-answer when `!answerData.expiryTs`
  (null or zero), otherwise cleaned-file-answer;
* `fileData && fileData.expiryTs` → served-file;
* otherwise, `stat` succeeds → recovered (the id is returned), `stat` throws →
  missing-file.
Every non-recovered branch returns the empty string, and the recovered list is
`.filter((id) => id)` — dropping falsy strings — mapped to `{ imageId }`. -/

/-- The six classification categories counted by `recoverFrames`. -/
inductive RecCategory where
  | noAnswer
  | unservedAnswer
  | cleanedFileAnswer
  | servedFile
  | recoveredFrame
  | missingFile
  deriving DecidableEq, Repr

/-- Classification of one tracked id, mirroring the branch order of the
per-id body of `recoverFrames`. -/
def classifyFrame : Option StoredFileState → Option StoredAnswer → Bool → RecCategory
  | some _, none, _ => RecCategory.noAnswer
  | none, some a, _ =>
      if tsTruthy a.expiryTs then RecCategory.cleanedFileAnswer
      else RecCategory.unservedAnswer
  | some f, some _, onDisk =>
      if tsTruthy f.expiryTs then RecCategory.servedFile
      else if onDisk then RecCategory.recoveredFrame else RecCategory.missingFile
  | none, none, onDisk =>
      if onDisk then RecCategory.recoveredFrame else RecCategory.missingFile

/-- The string contributed by one id to the pre-filter recovered list: the id
itself in the recovered branch and the empty-string sentinel otherwise. -/
def recoverStep (fileStore : String → Option StoredFileState)
    (ansStore : String → Option StoredAnswer) (onDisk : String → Bool)
    (id : String) : String :=
  match classifyFrame (fileStore id) (ansStore id) (onDisk id) with
  | RecCategory.recoveredFrame => id
  | _ => ""

/-- A recovered queue seed `{ imageId }`. -/
structure RecoveredFrame where
  imageId : String
  deriving DecidableEq, Repr

/-- The per-category counters returned by `recoverFrames`. -/
structure RecoverStats where
  noAnswer : Nat
  unservedAnswer : Nat
  cleanedFileAnswer : Nat
  servedFile : Nat
  recoveredCount : Nat
  missingFile : Nat
  deriving DecidableEq, Repr

/-- The classification of every scanned id, in scan order. -/
def recoverCats (ids : List String) (fileStore : String → Option StoredFileState)
    (ansStore : String → Option StoredAnswer) (onDisk : String → Bool) :
    List RecCategory :=
  ids.map (fun id => classifyFrame (fileStore id) (ansStore id) (onDisk id))

/-- The recovery scan: the recovered seed list (non-falsy ids wrapped as
`{ imageId }`) and the per-category counters. -/
def recoverFrames (ids : List String) (fileStore : String → Option StoredFileState)
    (ansStore : String → Option StoredAnswer) (onDisk : String → Bool) :
    List RecoveredFrame × RecoverStats :=
  (((ids.map (recoverStep fileStore ansStore onDisk)).filter
      (fun s => decide (s ≠ ""))).map (fun imageId => { imageId := imageId }),
    { noAnswer := (recoverCats ids fileStore ansStore onDisk).count RecCategory.noAnswer,
      unservedAnswer :=
        (recoverCats ids fileStore ansStore onDisk).count RecCategory.unservedAnswer,
      cleanedFileAnswer :=
        (recoverCats ids fileStore ansStore onDisk).count RecCategory.cleanedFileAnswer,
      servedFile := (recoverCats ids fileStore ansStore onDisk).count RecCategory.servedFile,
      recoveredCount :=
        (recoverCats ids fileStore ansStore onDisk).count RecCategory.recoveredFrame,
      missingFile :=
        (recoverCats ids fileStore ansStore onDisk).count RecCategory.missingFile })

theorem recCategory_count_sum (l : List RecCategory) :
    l.count RecCategory.noAnswer + l.count RecCategory.unservedAnswer +
        l.count RecCategory.cleanedFileAnswer + l.count RecCategory.servedFile +
        l.count RecCategory.recoveredFrame + l.count RecCategory.missingFile
      = l.length := by
  induction l with
  | nil => rfl
  | cons c rest ih => cases c <;> simp [List.count_cons] <;> omega

/-! ## Claim C3 -/

/-- C3: every scanned id is counted in exactly one of the six categories, so
the six per-category counters of `recoverFrames` sum to the number of scanned
ids. -/
theorem recoverFrames_stats_partition (ids : List String)
    (fileStore : String → Option StoredFileState)
    (ansStore : String → Option StoredAnswer) (onDisk : String → Bool) :
    (recoverFrames ids fileStore ansStore onDisk).2.noAnswer +
        (recoverFrames ids fileStore ansStore onDisk).2.unservedAnswer +
        (recoverFrames ids fileStore ansStore onDisk).2.cleanedFileAnswer +
        (recoverFrames ids fileStore ansStore onDisk).2.servedFile +
        (recoverFrames ids fileStore ansStore onDisk).2.recoveredCount +
        (recoverFrames ids fileStore ansStore onDisk).2.missingFile
      = ids.length := by
  have h := recCategory_count_sum (recoverCats ids fileStore ansStore onDisk)
  simpa [recoverFrames, recoverCats] using h

/-! ## Claim C2 -/

/-- C2 counterexample: the tracked id `""` with FileState and Answer both
present with null expiry and its image on disk is classified recovered, yet it
appears zero times (not once) in the recovered seed list, because the source
collects recovered ids through the empty-string sentinel and then drops falsy
strings with `.filter((id) => id)`. -/
theorem recoverFrames_empty_id_dropped :
    classifyFrame (some { expiryTs := none })
        (some { season := 1, episode := 1, seekTime := 1, expiryTs := none }) true
      = RecCategory.recoveredFrame ∧
      ((recoverFrames [""]
          (fun _ => some { expiryTs := none })
          (fun _ => some { season := 1, episode := 1, seekTime := 1, expiryTs := none })
          (fun _ => true)).1.countP (fun r => decide (r.imageId = ""))) = 0 := by
  exact ⟨rfl, rfl⟩

theorem countP_eq_one_of_unique {l : List String} (p : String → Bool)
    (hnd : l.Nodup) (id : String) (hmem : id ∈ l) (hp : p id = true)
    (huniq : ∀ j ∈ l, p j = true → j = id) : l.countP p = 1 := by
  induction l with
  | nil => cases hmem
  | cons k rest ih =>
      rw [List.nodup_cons] at hnd
      rw [List.countP_cons]
      rcases List.mem_cons.mp hmem with heq | hmemr
      · subst heq
        have hz : rest.countP p = 0 :=
          List.countP_eq_zero.mpr
            (fun a ha hpa => hnd.1 ((huniq a (List.mem_cons_of_mem _ ha) hpa) ▸ ha))
        simp [hz, hp]
      · have hkne : k ≠ id := fun he => hnd.1 (he ▸ hmemr)
        have hpk : p k = false := by
          cases hpkc : p k
          · rfl
          · exact absurd (huniq k (List.mem_cons_self k rest) hpkc) hkne
        have hrec := ih hnd.2 hmemr (fun j hj hpj => huniq j (List.mem_cons_of_mem _ hj) hpj)
        simp [hpk, hrec]

/-- C2 (amended): for every *nonempty* tracked frame id whose FileState and
Answer records are both present with null expiry and whose image file exists
on disk, the recovery scan includes that id in the recovered seed list exactly
once.  (The empty-string id, impossible for generated UUIDs, would be dropped
by the falsy-string filter.) -/
theorem recoverFrames_recovers_pending_id_once (ids : List String)
    (fileStore : String → Option StoredFileState)
    (ansStore : String → Option StoredAnswer) (onDisk : String → Bool)
    (id : String) (fd : StoredFileState) (a : StoredAnswer)
    (hnd : ids.Nodup) (hmem : id ∈ ids) (hne : id ≠ "")
    (hf : fileStore id = some fd) (hfe : fd.expiryTs = none)
    (ha : ansStore id = some a) (_hae : a.expiryTs = none)
    (hd : onDisk id = true) :
    (recoverFrames ids fileStore ansStore onDisk).1.countP
        (fun r => decide (r.imageId = id)) = 1 := by
  have hstepid : recoverStep fileStore ansStore onDisk id = id := by
    simp [recoverStep, classifyFrame, hf, ha, hfe, hd, tsTruthy]
  have hstep_cases : ∀ j, recoverStep fileStore ansStore onDisk j = j ∨
      recoverStep fileStore ansStore onDisk j = "" := by
    intro j
    unfold recoverStep
    cases classifyFrame (fileStore j) (ansStore j) (onDisk j) <;> simp
  simp only [recoverFrames]
  rw [List.countP_map, List.countP_filter, List.countP_map]
  refine countP_eq_one_of_unique _ hnd id hmem ?_ ?_
  · simp [Function.comp, hstepid, hne]
  · intro j hj hpj
    simp only [Function.comp] at hpj
    rcases hstep_cases j with hc | hc <;> rw [hc] at hpj
    · exact of_decide_eq_true (Bool.and_eq_true _ _ ▸ hpj).1
    · exact absurd (of_decide_eq_true (Bool.and_eq_true _ _ ▸ hpj).1).symm hne

/-- Witness for C2 (amended): a single tracked id `"f1"` with both records
present (null expiry) and its file on disk is recovered exactly once. -/
theorem recoverFrames_recovers_pending_id_once_witness :
    (recoverFrames ["f1"]
        (fun _ => some { expiryTs := none })
        (fun _ => some { season := 1, episode := 2, seekTime := 3, expiryTs := none })
        (fun _ => true)).1.countP (fun r => decide (r.imageId = "f1")) = 1 :=
  recoverFrames_recovers_pending_id_once ["f1"] _ _ _ "f1"
    { expiryTs := none } { season := 1, episode := 2, seekTime := 3, expiryTs := none }
    (by decide) (by decide) (by decide) rfl rfl rfl rfl rfl

/-! ## Orphan image sweep (`cleanupOrphanedImages`, `part_000`)

`cleanupOrphanedAndExpiredImages` lists the output directory twice and passes
both listings plus the frame-state keys to `cleanupOrphanedImages`, which
takes `intersection(frames1, frames2)` (lodash: the set of values present in
both listings), extracts the frame id from each path with the regex
`/(?<key>[0-9a-f\-]+)\.${ext}$/`, and removes the file when the regex matches
and the id is not among the tracked frame-state keys.

The regex is modelled by `extractKey`: the path must end in `.` + extension;
the candidate key is the longest run of `[0-9a-f-]` characters immediately
before that suffix; it matches exactly when that run is nonempty and is
immediately preceded by a `/` (any shorter suffix of the run is preceded by a
key character, not `/`, so the decomposition is unique). -/

/-- Character class `[0-9a-f-]` of the orphan-sweep key regex. -/
def hexDashChar (c : Char) : Bool :=
  (decide ('0' ≤ c) && decide (c ≤ '9')) ||
    (decide ('a' ≤ c) && decide (c ≤ 'f')) || decide (c = '-')

/-- The key captured by `/(?<key>[0-9a-f\-]+)\.${ext}$/` on a file path, when
the regex matches. -/
def extractKey (ext : String) (file : String) : Option String :=
  let sfx : List Char := '.' :: ext.data
  if sfx.isSuffixOf file.data then
    let stem := file.data.take (file.data.length - sfx.length)
    let keyRev := stem.reverse.takeWhile hexDashChar
    match keyRev, stem.reverse.dropWhile hexDashChar with
    | [], _ => none
    | _ :: _, [] => none
    | _ :: _, c :: _ =>
        if c = '/' then some (String.mk keyRev.reverse) else none
  else none

/-- Lodash `intersection(frames1, frames2)`: the duplicate-free values of the
first listing that also occur in the second. -/
def lodashIntersection (xs ys : List String) : List String :=
  xs.dedup.filter (fun f => decide (f ∈ ys))

/-- The files removed by `cleanupOrphanedImages`: files present in both
listings whose extracted key exists and is not a tracked frame-state key. -/
def cleanupOrphanedImages (ext : String) (frameFileIds frames1 frames2 : List String) :
    List String :=
  (lodashIntersection frames1 frames2).filter (fun frameFile =>
    match extractKey ext frameFile with
    | some key => decide (key ∉ frameFileIds)
    | none => false)

/-! ## Claim C4 -/

/-- C4: in the orphan sweep, a file appearing in only one of the two listings
is never deleted; and a file appearing in both listings whose extracted frame
id is not tracked by any FileState key is always deleted. -/
theorem cleanupOrphanedImages_double_listing :
    (∀ (ext : String) (ids f1 f2 : List String) (f : String),
      (f ∉ f1 ∨ f ∉ f2) → f ∉ cleanupOrphanedImages ext ids f1 f2) ∧
      (∀ (ext : String) (ids f1 f2 : List String) (f k : String),
        f ∈ f1 → f ∈ f2 → extractKey ext f = some k → k ∉ ids →
          f ∈ cleanupOrphanedImages ext ids f1 f2) := by
  constructor
  · intro ext ids f1 f2 f hor hmem
    rw [cleanupOrphanedImages, List.mem_filter] at hmem
    have hint := hmem.1
    rw [lodashIntersection, List.mem_filter, List.mem_dedup] at hint
    rcases hor with h | h
    · exact h hint.1
    · exact h (of_decide_eq_true hint.2)
  · intro ext ids f1 f2 f k h1 h2 hk hnk
    rw [cleanupOrphanedImages, List.mem_filter]
    refine ⟨?_, ?_⟩
    · rw [lodashIntersection, List.mem_filter, List.mem_dedup]
      exact ⟨h1, decide_eq_true h2⟩
    · rw [hk]
      exact decide_eq_true hnk

/-- Witness for C4: with extension `png`, the path `/out/ab-12.png` (key
`ab-12`, untracked) present in both listings is deleted, while the same path
present only in the first listing is not. -/
theorem cleanupOrphanedImages_double_listing_witness :
    "/out/ab-12.png" ∉ cleanupOrphanedImages "png" ["zz"] ["/out/ab-12.png"] [] ∧
      "/out/ab-12.png" ∈
        cleanupOrphanedImages "png" ["zz"] ["/out/ab-12.png"] ["/out/ab-12.png"] :=
  ⟨cleanupOrphanedImages_double_listing.1 "png" ["zz"] ["/out/ab-12.png"] []
      "/out/ab-12.png" (Or.inr (by decide)),
    cleanupOrphanedImages_double_listing.2 "png" ["zz"] ["/out/ab-12.png"]
      ["/out/ab-12.png"] "/out/ab-12.png" "ab-12" (by decide) (by decide) (by decide)
      (by decide)⟩

/-! ## Frame-serving endpoint (`server/api/frame/get/[basename].ts`)

The handler reads the `basename` route parameter; a missing basename throws a
404; a basename matching `traversingPathRe = /[/\\]|\.\./` (a path separator
or the substring `..`) or not ending in `.` + the configured image output
extension throws a 400; only past those checks does it touch the filesystem,
opening `path.join(config.frameOutputDir, basename)`.  The pure model returns
`Except`: `.error` carries the HTTP status thrown before any filesystem
access, `.ok` carries the single path the handler then opens (for a basename
with no separator, `path.join` is directory + `/` + basename). -/

/-- Substring test on character lists (used for the `\.\.` alternative of the
regex). -/
def containsSub (pat : List Char) : List Char → Bool
  | [] => pat.isEmpty
  | c :: rest => pat.isPrefixOf (c :: rest) || containsSub pat rest

/-- The test `traversingPathRe.test(basename)` for `/[/\\]|\.\./`: some
character is a slash or backslash, or `..` occurs as a substring. -/
def traversingPath (b : String) : Bool :=
  b.data.any (fun c => decide (c = '/') || decide (c = '\\')) ||
    containsSub ['.', '.'] b.data

/-- The frame GET handler: 404 on a missing basename, 400 on a traversing or
wrong-extension basename, otherwise the opened file path. -/
def handleFrameGet (ext frameOutputDir : String) (basename : Option String) :
    Except Nat String :=
  match basename with
  | none => Except.error 404
  | some b =>
      if traversingPath b || !(('.' :: ext.data).isSuffixOf b.data) then
        Except.error 400
      else Except.ok (frameOutputDir ++ "/" ++ b)

/-! ## Claim C10 -/

/-- C10: a missing basename yields a 404; a basename containing a path
separator or `..`, or not ending with the configured extension, yields a 400
before any filesystem access; and any request that reaches the filesystem
opens exactly `frameOutputDir/basename` where the basename contains no
separator and no `..` and carries the configured extension — so no request
reads a file outside the configured frame output directory. -/
theorem frameGet_rejects_traversal_before_fs :
    (∀ ext dir : String, handleFrameGet ext dir none = Except.error 404) ∧
      (∀ ext dir b : String,
        (traversingPath b = true ∨ ('.' :: ext.data).isSuffixOf b.data = false) →
          handleFrameGet ext dir (some b) = Except.error 400) ∧
      (∀ (ext dir : String) (bo : Option String) (p : String),
        handleFrameGet ext dir bo = Except.ok p →
          ∃ b, bo = some b ∧ p = dir ++ "/" ++ b ∧
            (∀ c ∈ b.data, c ≠ '/' ∧ c ≠ '\\') ∧
            containsSub ['.', '.'] b.data = false ∧
            ('.' :: ext.data).isSuffixOf b.data = true) := by
  refine ⟨fun ext dir => rfl, ?_, ?_⟩
  · intro ext dir b hb
    have hcond : (traversingPath b || !(('.' :: ext.data).isSuffixOf b.data)) = true := by
      rcases hb with h | h
      · simp [h]
      · simp [h]
    simp [handleFrameGet, hcond]
  · intro ext dir bo p hp
    cases bo with
    | none => exact absurd hp (by simp [handleFrameGet])
    | some b =>
        refine ⟨b, rfl, ?_⟩
        by_cases hcond : (traversingPath b || !(('.' :: ext.data).isSuffixOf b.data)) = true
        · rw [handleFrameGet] at hp
          simp [hcond] at hp
        · rw [handleFrameGet] at hp
          rw [Bool.or_eq_true, not_or] at hcond
          have htrav : traversingPath b = false := by
            cases h : traversingPath b
            · rfl
            · exact absurd h hcond.1
          have hsfx : ('.' :: ext.data).isSuffixOf b.data = true := by
            cases h : ('.' :: ext.data).isSuffixOf b.data
            · exact absurd (by simp [h]) hcond.2
            · rfl
          have hpeq : p = dir ++ "/" ++ b := by
            have : Except.ok (ε := Nat) (dir ++ "/" ++ b) = Except.ok p := by
              rw [← hp]
              simp [htrav, hsfx]
            exact (Except.ok.injEq _ _ ▸ this).symm
          rw [traversingPath, Bool.or_eq_false_iff] at htrav
          refine ⟨hpeq, ?_, htrav.2, hsfx⟩
          intro c hc
          have hany := htrav.1
          rw [List.any_eq_false] at hany
          have hcn := hany c hc
          constructor
          · intro he
            exact hcn (by simp [he])
          · intro he
            exact hcn (by simp [he])

/-- Witness for C10: the basename `../secret.png` is rejected with 400, a
missing basename with 404, and the accepted basename `ab.png` opens exactly
`/frames/ab.png`, inside the output directory. -/
theorem frameGet_rejects_traversal_before_fs_witness :
    handleFrameGet "png" "/frames" none = Except.error 404 ∧
      handleFrameGet "png" "/frames" (some "../secret.png") = Except.error 400 ∧
      ∃ b, some "ab.png" = some b ∧ "/frames/ab.png" = "/frames" ++ "/" ++ b ∧
        (∀ c ∈ b.data, c ≠ '/' ∧ c ≠ '\\') ∧
        containsSub ['.', '.'] b.data = false ∧
        ('.' :: "png".data).isSuffixOf b.data = true :=
  ⟨frameGet_rejects_traversal_before_fs.1 "png" "/frames",
    frameGet_rejects_traversal_before_fs.2.1 "png" "/frames" "../secret.png"
      (Or.inl (by decide)),
    frameGet_rejects_traversal_before_fs.2.2 "png" "/frames" (some "ab.png")
      "/frames/ab.png" rfl⟩
